import Mathlib

/-!
Verification development for the CUDA BLAS dispatcher (`cuda_blas.c`, here
`src/unnamed/part_000`) and the NCCL collectives coordinator
(`src/unnamed/part_001`) of libgpuarray.

The embedding is a trace semantics: each entry point is a pure function from
its arguments and an environment (the oracle deciding which external calls
fail) to a returned status together with the sequence of externally visible
events it performed — critical-section enter/exit (`cuda_enter`/`cuda_exit`),
hazard waits and records (`cuda_wait`/`cuda_record` with their modes), scratch
buffer allocations and releases, vendor library calls, custom kernel launches
and cuBLAS pointer-mode manipulations.  Events are appended in the order the C
code performs the corresponding calls; an event is appended for the attempt
even when the environment makes the call fail, mirroring that the call was
issued.
-/

/-- GA_* error codes that the modelled code can return (never GA_NO_ERROR). -/
inductive ErrCode
  | invalid       -- GA_INVALID_ERROR
  | unsupported   -- GA_UNSUPPORTED_ERROR
  | xlarge        -- GA_XLARGE_ERROR
  | value         -- GA_VALUE_ERROR
  | comm          -- GA_COMM_ERROR
  | blas          -- GA_BLAS_ERROR
  | devsup        -- GA_DEVSUP_ERROR
  | mem           -- GA_MEMORY_ERROR
  | misc          -- any other error code
deriving DecidableEq

/-- Return status of an entry point: GA_NO_ERROR or an error code. -/
inductive Status
  | ok
  | error (c : ErrCode)
deriving DecidableEq

/-- Hazard mode of a `cuda_wait`/`cuda_record` call:
CUDA_WAIT_READ / CUDA_WAIT_WRITE / CUDA_WAIT_ALL. -/
inductive WMode
  | read
  | write
  | all
deriving DecidableEq

/-- cuBLAS pointer mode (CUBLAS_POINTER_MODE_HOST / _DEVICE). -/
inductive PMode
  | host
  | device
deriving DecidableEq

/-- Which operand a hazard event refers to (the function's local name for the
buffer, after any row-major argument swap). -/
inductive Od
  | a
  | b
  | c
  | x
  | y
  | z
  | src
  | dst
deriving DecidableEq

/-- Externally visible events of one entry-point invocation. -/
inductive Ev
  | enter                                        -- cuda_enter(ctx)
  | exit                                         -- cuda_exit(ctx)
  | wait (o : Od) (i : Nat) (m : WMode)          -- cuda_wait(buf, mode)
  | record (o : Od) (i : Nat) (m : WMode)        -- cuda_record(buf, mode)
  | alloc (id : Nat) (sz : Nat)                  -- scratch gpudata/buffer alloc
  | release (id : Nat)                           -- scratch release
  | writeScratch (id : Nat) (sz : Nat)           -- gpudata_write into scratch
  | vendor (name : String)                       -- a cublas/nccl device call
  | vendorB (name : String) (aOff bOff cOff : Nat) -- batched cublas call with
                                                 -- its three pointer-array
                                                 -- device offsets in scratch
  | kern (name : String) (gs ls : List Nat) (sc : List Rat) -- GpuKernel_call
  | getPMode                                     -- cublasGetPointerMode
  | setPMode (m : PMode)                         -- cublasSetPointerMode
deriving DecidableEq

/-- Environment: the oracle deciding the outcome of each external call.
Counters index the calls of each kind in program order. -/
structure Env where
  /-- return value of the n-th `cuda_wait`/`cuda_record` call (`.ok` = success) -/
  syncRes : Nat → Status
  /-- whether the n-th cublas call succeeds -/
  blasOk : Nat → Bool
  /-- if the n-th cublas call fails, whether with CUBLAS_STATUS_ARCH_MISMATCH
  (then `error_cublas` yields GA_DEVSUP_ERROR, otherwise GA_BLAS_ERROR) -/
  blasArch : Nat → Bool
  /-- whether the n-th scratch allocation succeeds -/
  allocOk : Nat → Bool
  /-- `ctx->err->code` observed after the n-th allocation, when it failed -/
  allocCode : Nat → ErrCode
  /-- return value of `gpudata_write` -/
  writeRes : Status
  /-- return value of `GpuKernel_call` -/
  kernRes : Status
  /-- whether the nccl collective call succeeds -/
  ncclOk : Bool
  /-- whether `ncclCommUserRank` succeeds -/
  rankOk : Bool

/-- The benign environment: every external call succeeds. -/
def okEnv : Env where
  syncRes := fun _ => .ok
  blasOk := fun _ => true
  blasArch := fun _ => false
  allocOk := fun _ => true
  allocCode := fun _ => .mem
  writeRes := .ok
  kernRes := .ok
  ncclOk := true
  rankOk := true

/-- Like `okEnv` but every scratch allocation fails (resource exhaustion). -/
def envAllocFail : Env :=
  { okEnv with allocOk := fun _ => false }

/-- Running state of one invocation: trace so far plus the per-kind call
counters consumed so far. -/
structure St where
  tr : List Ev
  ns : Nat
  nb : Nat
  na : Nat
deriving DecidableEq

/-- One `cuda_wait`/`cuda_record` call: appends the event, consumes a sync
slot, reports the call's status. -/
def sync1 (e : Env) (ev : Ev) (s : St) : Status × St :=
  (e.syncRes s.ns, { s with tr := s.tr ++ [ev], ns := s.ns + 1 })

/-- A straight-line sequence of `cuda_wait`/`cuda_record` calls, each guarded
by `GA_CUDA_EXIT_ON_ERROR`-style early return: stops at the first failing
call, yielding its error code and the state at that point. -/
def syncList (e : Env) : List Ev → St → Except (ErrCode × St) St
  | [], s => .ok s
  | ev :: rest, s =>
    match sync1 e ev s with
    | (.ok, s1) => syncList e rest s1
    | (.error cc, s1) => .error (cc, s1)

/-- A loop over batch items `i, i+1, …`, performing the sync calls `evs j`
for each item `j`, with early return on the first failure. -/
def syncItems (e : Env) (evs : Nat → List Ev) : Nat → Nat → St → Except (ErrCode × St) St
  | _, 0, s => .ok s
  | i, k + 1, s =>
    match syncList e (evs i) s with
    | .ok s1 => syncItems e evs (i + 1) k s1
    | .error es => .error es

/-- One cublas call guarded by `CUBLAS_EXIT_ON_ERROR` / explicit `err` check:
appends the event, consumes a cublas slot, reports `none` on success and the
translated GA error code on failure. -/
def blas1 (e : Env) (ev : Ev) (s : St) : Option ErrCode × St :=
  let s1 : St := { s with tr := s.tr ++ [ev], nb := s.nb + 1 }
  if e.blasOk s.nb then (none, s1)
  else (some (if e.blasArch s.nb then .devsup else .blas), s1)

/-- One scratch allocation: on success the alloc event is appended; on failure
nothing is allocated and the caller reads `ctx->err->code`. -/
def alloc1 (e : Env) (id sz : Nat) (s : St) : Option ErrCode × St :=
  if e.allocOk s.na then
    (none, { s with tr := s.tr ++ [.alloc id sz], na := s.na + 1 })
  else
    (some (e.allocCode s.na), { s with na := s.na + 1 })

/-- The state carried by either branch of an `Except` result. -/
def stOf : Except (ErrCode × St) St → St
  | .ok s => s
  | .error (_, s) => s

/-- The common tail of every dispatcher: a trailing loop of sync calls whose
failure exits and returns the error, followed by `cuda_exit` and
GA_NO_ERROR. -/
def tailExit : Except (ErrCode × St) St → Status × List Ev
  | .error (cc, s) => (.error cc, s.tr ++ [.exit])
  | .ok s => (.ok, s.tr ++ [.exit])

/-- `cb_order`: column-major (cb_f) or row-major (cb_c). -/
inductive Order
  | colMajor
  | rowMajor
deriving DecidableEq

/-- `cb_transpose`. -/
inductive Transpose
  | noTrans
  | trans
  | conjTrans
deriving DecidableEq

/-- The gemv row-major normalization of the transpose flag. -/
def flipT : Transpose → Transpose
  | .noTrans => .trans
  | _ => .noTrans

/-- `LARGE_VAL(v)`: `v >= INT_MAX` with INT_MAX = 2147483647. -/
def largeVal (v : Nat) : Bool := decide (2147483647 ≤ v)

/-- The kernel objects a batched-gemv entry point launches
(no-transpose and transpose variants). -/
structure GemvNames where
  kN : String
  kT : String
deriving DecidableEq

/-- sgemvBatch launches the handle's single-precision gemv kernels. -/
def sGemvNames : GemvNames := ⟨"sgemvBH_N_a1_b1_small", "sgemvBH_T_a1_b1_small"⟩

/-- dgemvBatch launches the handle's double-precision gemv kernels. -/
def dGemvNames : GemvNames := ⟨"dgemvBH_N_a1_b1_small", "dgemvBH_T_a1_b1_small"⟩

/-- Arguments of a batched gemv call.  `alpha`/`beta` are modelled as exact
rationals: the code only compares them against 1.0, and every float value is
exactly representable as a rational. -/
structure GemvBatchArgs where
  order : Order
  transA : Transpose
  M : Nat
  N : Nat
  alpha : Rat
  beta : Rat
  lda : Nat
  incX : Nat
  incY : Nat
  batchCount : Nat
  flags : Int
deriving DecidableEq

/-- Block shape chosen by sgemvBatch/dgemvBatch (`ls[0], ls[1]`). -/
def gemvBatchLs (M batchCount : Nat) : Nat × Nat :=
  if M < 512 then (32, if batchCount > 16 then 16 else batchCount)
  else (512, 1)

/-- Grid shape chosen by sgemvBatch/dgemvBatch (`gs[0], gs[1]`), including the
65535 clamp `if (gs[0] * gs[1] / 65535) gs[1] = 65535 / gs[0];` at lines
1202-1204 and 1325-1327. -/
def gemvBatchGs (M batchCount : Nat) : Nat × Nat :=
  let ls := gemvBatchLs M batchCount
  let g0 := (M + ls.1 - 1) / ls.1
  let g1 := (batchCount + ls.2 - 1) / ls.2
  if g0 * g1 / 65535 ≠ 0 then (g0, 65535 / g0) else (g0, g1)

/-- sgemvBatch/dgemvBatch (lines 1167-1290 and 1292-1412).  The
kernel-argument pointer arrays are staged through three scratch buffers
(ids 0 = A, 1 = x, 2 = y of `sizeof(float*) * batchCount` bytes each,
modelled with 8-byte pointers); the three allocation-failure branches return
`ctx->err->code` WITHOUT calling `cuda_exit`, exactly as the source does. -/
def gemvBatch (nm : GemvNames) (e : Env) (a : GemvBatchArgs) : Status × List Ev :=
  if a.flags ≠ 0 then (.error .invalid, [])
  else if a.alpha ≠ 1 ∨ a.beta ≠ 1 then (.error .unsupported, [])
  else
    let ls := gemvBatchLs a.M a.batchCount
    let gs := gemvBatchGs a.M a.batchCount
    let transA := if a.order = .rowMajor then flipT a.transA else a.transA
    let s0 : St := ⟨[.enter], 0, 0, 0⟩
    match syncItems e
        (fun i => [.wait .a i .read, .wait .x i .read, .wait .y i .all])
        0 a.batchCount s0 with
    | .error (cc, s) => (.error cc, s.tr ++ [.exit])
    | .ok s =>
      match alloc1 e 0 (8 * a.batchCount) s with
      | (some cc, s1) => (.error cc, s1.tr)   -- source: return without cuda_exit
      | (none, s1) =>
        match alloc1 e 1 (8 * a.batchCount) s1 with
        | (some cc, s2) => (.error cc, s2.tr ++ [.release 0]) -- no cuda_exit
        | (none, s2) =>
          match alloc1 e 2 (8 * a.batchCount) s2 with
          | (some cc, s3) => (.error cc, s3.tr ++ [.release 0, .release 1]) -- no cuda_exit
          | (none, s3) =>
            let kname := if transA = .noTrans then nm.kN else nm.kT
            let s4 : St :=
              { s3 with tr := s3.tr ++ [.kern kname [gs.1, gs.2] [ls.1, ls.2] []] }
            let s5 : St := { s4 with tr := s4.tr ++ [.release 0, .release 1, .release 2] }
            match e.kernRes with
            | .error cc => (.error cc, s5.tr ++ [.exit])
            | .ok =>
              tailExit (syncItems e
                (fun i => [.record .a i .read, .record .x i .read, .record .y i .all])
                0 a.batchCount s5)

/-- `sgemvBatch`. -/
def sgemvBatch (e : Env) (a : GemvBatchArgs) : Status × List Ev :=
  gemvBatch sGemvNames e a

/-- `dgemvBatch`. -/
def dgemvBatch (e : Env) (a : GemvBatchArgs) : Status × List Ev :=
  gemvBatch dGemvNames e a

/-- A well-formed small batched gemv call: 4×4 item, one batch entry. -/
def gemvArgs1 : GemvBatchArgs :=
  { order := .colMajor, transA := .noTrans, M := 4, N := 4, alpha := 1, beta := 1,
    lda := 4, incX := 1, incY := 1, batchCount := 1, flags := 0 }

/-- Arguments of a batched rank-1 update call. -/
structure GerBatchArgs where
  order : Order
  M : Nat
  N : Nat
  alpha : Rat
  incX : Nat
  incY : Nat
  lda : Nat
  batchCount : Nat
  flags : Int
deriving DecidableEq

/-- Block/grid shape chosen by sgerBatch/dgerBatch before the 65535 clamp
(lines 1524, 1536-1554): starts from `ls = {M, N, 1}`,
`gs = {1, 1, batchCount}` and tiles the row or column dimension first
depending on `incX == 1`. -/
def gerBatchLsGs (M N incX batchCount : Nat) :
    (Nat × Nat × Nat) × (Nat × Nat × Nat) :=
  if incX = 1 then
    let (ls0, gs0) := if M > 32 then (32, (M + 31) / 32) else (M, 1)
    let (ls1, gs1) := if ls0 * N > 512 then (16, (N + 15) / 16) else (N, 1)
    ((ls0, ls1, 1), (gs0, gs1, batchCount))
  else
    let (ls1, gs1) := if N > 32 then (32, (N + 31) / 32) else (N, 1)
    let (ls0, gs0) := if M * ls1 > 512 then (16, (M + 15) / 16) else (M, 1)
    ((ls0, ls1, 1), (gs0, gs1, batchCount))

/-- sgerBatch/dgerBatch (lines 1517-1646 and 1648-1776).  `kname` is the
kernel object of the blas handle that the entry point launches (the source
launches `sgerBH_gen_small` in BOTH precisions, lines 1626 and 1757).  The
three allocation-failure branches return without `cuda_exit`, as in the
source; the record loop uses modes (A: READ, x: READ, y: ALL) while the wait
loop used (A: ALL, x: READ, y: READ), again as in the source
(lines 1588-1590 vs 1639-1641). -/
def gerBatch (kname : String) (e : Env) (a : GerBatchArgs) : Status × List Ev :=
  if a.flags ≠ 0 then (.error .invalid, [])
  else
    let d := gerBatchLsGs a.M a.N a.incX a.batchCount
    let l0 := d.1.1
    let l1 := d.1.2.1
    let l2 := d.1.2.2
    let g0 := d.2.1
    let g1 := d.2.2.1
    let g2 := d.2.2.2
    if g0 * g1 * g2 > 65535 ∧ g0 * g1 > 65535 then (.error .value, [])
    else
      let g2 := if g0 * g1 * g2 > 65535 then 65535 / (g0 * g1) else g2
      let s0 : St := ⟨[.enter], 0, 0, 0⟩
      match syncItems e
          (fun i => [.wait .a i .all, .wait .x i .read, .wait .y i .read])
          0 a.batchCount s0 with
      | .error (cc, s) => (.error cc, s.tr ++ [.exit])
      | .ok s =>
        match alloc1 e 0 (8 * a.batchCount) s with
        | (some cc, s1) => (.error cc, s1.tr)   -- source: return without cuda_exit
        | (none, s1) =>
          match alloc1 e 1 (8 * a.batchCount) s1 with
          | (some cc, s2) => (.error cc, s2.tr ++ [.release 0]) -- no cuda_exit
          | (none, s2) =>
            match alloc1 e 2 (8 * a.batchCount) s2 with
            | (some cc, s3) => (.error cc, s3.tr ++ [.release 0, .release 1]) -- no cuda_exit
            | (none, s3) =>
              let s4 : St :=
                { s3 with tr := s3.tr ++ [.kern kname [g0, g1, g2] [l0, l1, l2] [a.alpha]] }
              let s5 : St :=
                { s4 with tr := s4.tr ++ [.release 0, .release 1, .release 2] }
              match e.kernRes with
              | .error cc => (.error cc, s5.tr ++ [.exit])
              | .ok =>
                tailExit (syncItems e
                  (fun i => [.record .a i .read, .record .x i .read, .record .y i .all])
                  0 a.batchCount s5)

/-- `sgerBatch` launches the handle's `sgerBH_gen_small` kernel (line 1626). -/
def sgerBatch (e : Env) (a : GerBatchArgs) : Status × List Ev :=
  gerBatch "sgerBH_gen_small" e a

/-- `dgerBatch` ALSO launches the handle's `sgerBH_gen_small` kernel (line
1757), although the handle's compiled `dgerBH_gen_small` kernel exists. -/
def dgerBatch (e : Env) (a : GerBatchArgs) : Status × List Ev :=
  gerBatch "sgerBH_gen_small" e a

/-- The scalar element type each compiled kernel of the blas handle computes
with, read off the kernel source strings (`code_*` at lines 79-197). -/
def kernelScalar : String → Option Bool   -- false = float32, true = float64
  | "sgemvBH_N_a1_b1_small" => some false
  | "sgemvBH_T_a1_b1_small" => some false
  | "dgemvBH_N_a1_b1_small" => some true
  | "dgemvBH_T_a1_b1_small" => some true
  | "sgerBH_gen_small" => some false
  | "dgerBH_gen_small" => some true
  | _ => none

/-- A small batched ger call with the given alpha: 2×2 items, unit strides,
one batch entry. -/
def gerArgs1 (q : Rat) : GerBatchArgs :=
  { order := .colMajor, M := 2, N := 2, alpha := q, incX := 1, incY := 1,
    lda := 2, batchCount := 1, flags := 0 }

/-- The vendor entry points a pointer-batched gemm dispatches to. -/
structure GemmNames where
  gemm : String
  gemmB : String
deriving DecidableEq

/-- sgemmBatch dispatches to cublasSgemm / cublasSgemmBatched. -/
def sGemmNames : GemmNames := ⟨"cublasSgemm", "cublasSgemmBatched"⟩

/-- dgemmBatch dispatches to cublasDgemm / cublasDgemmBatched. -/
def dGemmNames : GemmNames := ⟨"cublasDgemm", "cublasDgemmBatched"⟩

/-- Arguments of a pointer-batched gemm call. -/
structure GemmBatchArgs where
  order : Order
  transA : Transpose
  transB : Transpose
  M : Nat
  N : Nat
  K : Nat
  lda : Nat
  ldb : Nat
  ldc : Nat
  batchCount : Nat
deriving DecidableEq

/-- The `LARGE_VAL` overflow screen of sgemmBatch/dgemmBatch.  Every operand
of the product checks has already passed its individual check when a product
is formed, so the products stay below 2^62 and the size_t arithmetic cannot
wrap. -/
def gemmOverflow (a : GemmBatchArgs) : Bool :=
  largeVal a.M || largeVal a.N || largeVal a.K ||
  largeVal a.lda || largeVal a.ldb || largeVal a.ldc ||
  largeVal (a.M * a.N) || largeVal (a.M * a.K) || largeVal (a.K * a.N)

/-- The per-item loop of the large-volume branch (lines 780-800): for each
batch item wait A/B/C, issue one vendor gemm call, record A/B/C, stopping at
the first failure. -/
def gemmBigItems (e : Env) (nm : String) : Nat → Nat → St → Except (ErrCode × St) St
  | _, 0, s => .ok s
  | i, k + 1, s =>
    match syncList e [.wait .a i .read, .wait .b i .read, .wait .c i .all] s with
    | .error es => .error es
    | .ok s1 =>
      match blas1 e (.vendor nm) s1 with
      | (some cc, s2) => .error (cc, s2)
      | (none, s2) =>
        match syncList e [.record .a i .read, .record .b i .read, .record .c i .all] s2 with
        | .error es => .error es
        | .ok s3 => gemmBigItems e nm (i + 1) k s3

/-- sgemmBatch/dgemmBatch (lines 734-859 and 861-986).  The row-major swap
exchanges M↔N (and the operand arrays, leading dimensions and transpose
flags, which leave no trace here).  Large per-item volume (`M*N*K > 650³`)
takes one vendor gemm per item; otherwise one scratch buffer of
`3 * batchCount` pointers is allocated, written once and passed as three
equal consecutive pointer-array regions to a single vendor batched call, and
released right after that call on every path. -/
def gemmBatch (nm : GemmNames) (e : Env) (a : GemmBatchArgs) : Status × List Ev :=
  if gemmOverflow a then (.error .xlarge, [])
  else
    let M := if a.order = .rowMajor then a.N else a.M
    let N := if a.order = .rowMajor then a.M else a.N
    let s0 : St := ⟨[.enter], 0, 0, 0⟩
    if M * N * a.K > 650 * 650 * 650 then
      tailExit (gemmBigItems e nm.gemm 0 a.batchCount s0)
    else
      match syncItems e
          (fun i => [.wait .a i .read, .wait .b i .read, .wait .c i .all])
          0 a.batchCount s0 with
      | .error (cc, s) => (.error cc, s.tr ++ [.exit])
      | .ok s =>
        match alloc1 e 0 (8 * a.batchCount * 3) s with
        | (some cc, s1) => (.error cc, s1.tr ++ [.exit])
        | (none, s1) =>
          match e.writeRes with
          | .error cc => (.error cc, s1.tr ++ [.release 0, .exit])
          | .ok =>
            let s2 : St :=
              { s1 with tr := s1.tr ++ [.writeScratch 0 (8 * a.batchCount * 3)] }
            match blas1 e (.vendorB nm.gemmB 0 (a.batchCount * 8) (a.batchCount * 8 * 2)) s2 with
            | (some cc, s3) => (.error cc, s3.tr ++ [.release 0, .exit])
            | (none, s3) =>
              let s4 : St := { s3 with tr := s3.tr ++ [.release 0] }
              tailExit (syncItems e
                (fun i => [.record .a i .read, .record .b i .read, .record .c i .all])
                0 a.batchCount s4)

/-- `sgemmBatch`. -/
def sgemmBatch (e : Env) (a : GemmBatchArgs) : Status × List Ev :=
  gemmBatch sGemmNames e a

/-- `dgemmBatch`. -/
def dgemmBatch (e : Env) (a : GemmBatchArgs) : Status × List Ev :=
  gemmBatch dGemmNames e a

/-- A below-threshold batched gemm call (1×1×1 items, one batch entry). -/
def gbArgs1 : GemmBatchArgs :=
  { order := .colMajor, transA := .noTrans, transB := .noTrans, M := 1, N := 1,
    K := 1, lda := 1, ldb := 1, ldc := 1, batchCount := 1 }

/-- sdot/ddot (lines 988-1026 and 1028-1067): wait X, Y (READ) and Z (WRITE);
save the cublas handle's pointer mode, switch it to device mode so the
scalar result lands in the device buffer Z, run the vendor dot, restore the
saved mode; record the three hazards; exit.  Returns (status, trace, pointer
mode of the handle on return), given the handle's pointer mode on entry. -/
def dotModel (vname : String) (e : Env) (pm0 : PMode) (N : Nat) :
    Status × List Ev × PMode :=
  if largeVal N then (.error .xlarge, [], pm0)
  else
    let s0 : St := ⟨[.enter], 0, 0, 0⟩
    match syncList e [.wait .x 0 .read, .wait .y 0 .read, .wait .z 0 .write] s0 with
    | .error (cc, s) => (.error cc, s.tr ++ [.exit], pm0)
    | .ok s1 =>
      match blas1 e .getPMode s1 with
      | (some cc, s2) => (.error cc, s2.tr ++ [.exit], pm0)
      | (none, s2) =>
        match blas1 e (.setPMode .device) s2 with
        | (some cc, s3) => (.error cc, s3.tr ++ [.exit], pm0)
        | (none, s3) =>
          match blas1 e (.vendor vname) s3 with
          | (some cc, s4) => (.error cc, s4.tr ++ [.exit], .device)
          | (none, s4) =>
            match blas1 e (.setPMode pm0) s4 with
            | (some cc, s5) => (.error cc, s5.tr ++ [.exit], .device)
            | (none, s5) =>
              match syncList e
                  [.record .x 0 .read, .record .y 0 .read, .record .z 0 .write] s5 with
              | .error (cc, s) => (.error cc, s.tr ++ [.exit], pm0)
              | .ok s6 => (.ok, s6.tr ++ [.exit], pm0)

/-- `sdot`. -/
def sdot (e : Env) (pm0 : PMode) (N : Nat) : Status × List Ev × PMode :=
  dotModel "cublasSdot" e pm0 N

/-- `ddot`. -/
def ddot (e : Env) (pm0 : PMode) (N : Nat) : Status × List Ev × PMode :=
  dotModel "cublasDdot" e pm0 N

/-- A device buffer: owning context (as an id) and byte size. -/
structure Buf where
  ctx : Nat
  sz : Nat
deriving DecidableEq

/-- A communicator: bound context, this participant's rank, world size. -/
structure Comm where
  ctx : Nat
  rank : Int
  ndev : Int
deriving DecidableEq

/-- Element type codes accepted by `convert_data_type` (the build is modelled
with CUDA_HAS_HALF defined); `other` stands for every unrecognized code. -/
inductive ElType
  | byte
  | i32
  | f16
  | f32
  | f64
  | i64
  | u64
  | other
deriving DecidableEq

/-- `gpuarray_get_elsize` for the codes above. -/
def elsize : ElType → Nat
  | .byte => 1
  | .i32 => 4
  | .f16 => 2
  | .f32 => 4
  | .f64 => 8
  | .i64 => 8
  | .u64 => 8
  | .other => 1

/-- Reduction opcodes accepted by `convert_reduce_op`. -/
inductive RedOp
  | sum
  | prod
  | rmax
  | rmin
  | other
deriving DecidableEq

/-- 2^64, the modulus of size_t arithmetic. -/
def W64 : Nat := 18446744073709551616

/-- size_t subtraction `x - y` (wrapping modulo 2^64). -/
def sub64 (x y : Nat) : Nat := (x % W64 + (W64 - y % W64)) % W64

/-- The dest-context clause of check_restrictions (skipped for NULL dest). -/
def ckDestCtx : Option Buf → Comm → Bool
  | none, _ => false
  | some d, comm => d.ctx != comm.ctx

/-- The dest-capacity clause of check_restrictions (skipped for NULL dest). -/
def ckDestSize : Option Buf → Nat → Nat → Bool
  | none, _, _ => false
  | some d, offdest, opSize => decide (sub64 d.sz offdest < opSize)

/-- `check_restrictions` (lines 154-186): context match for src (and dest
when present), data-type and (when requested) reduce-op validity, then the
capacity checks `src->sz - offsrc < op_size` and
`dest->sz - offdest < op_size` computed in size_t arithmetic.  The trailing
`assert(!(offsrc > src->sz))` statements are compiled out of release builds
and return no status, so they are not part of the returned-status
semantics. -/
def check_restrictions (src : Buf) (offsrc : Nat) (dest : Option Buf)
    (offdest : Nat) (count : Nat) (tc : ElType) (oc : RedOp) (comm : Comm)
    (hasOp : Bool) : Status :=
  if src.ctx != comm.ctx then .error .value
  else if ckDestCtx dest comm then .error .value
  else if tc == .other then .error .value
  else if hasOp && (oc == .other) then .error .value
  else if decide (sub64 src.sz offsrc < (count * elsize tc) % W64) then .error .value
  else if ckDestSize dest offdest ((count * elsize tc) % W64) then .error .value
  else .ok

/-- `all_reduce` (lines 234-266): validate via check_restrictions (with an
op), then enter the critical section, wait src READ and dest WRITE, issue
ncclAllReduce on the context's stream, record symmetrically, exit. -/
def all_reduce (e : Env) (src : Buf) (offsrc : Nat) (dest : Buf) (offdest : Nat)
    (count : Nat) (tc : ElType) (oc : RedOp) (comm : Comm) : Status × List Ev :=
  match check_restrictions src offsrc (some dest) offdest count tc oc comm true with
  | .error cc => (.error cc, [])
  | .ok =>
    let s0 : St := ⟨[.enter], 0, 0, 0⟩
    match syncList e [.wait .src 0 .read, .wait .dst 0 .write] s0 with
    | .error (cc, s) => (.error cc, s.tr ++ [.exit])
    | .ok s1 =>
      let s2 : St := { s1 with tr := s1.tr ++ [.vendor "ncclAllReduce"] }
      if ¬ e.ncclOk then (.error .comm, s2.tr ++ [.exit])
      else
        match syncList e [.record .src 0 .read, .record .dst 0 .write] s2 with
        | .error (cc, s) => (.error cc, s.tr ++ [.exit])
        | .ok s3 => (.ok, s3.tr ++ [.exit])

/-- `reduce` (lines 188-232): query the caller's rank; only the root keeps
its `dest` argument (`dst = NULL` otherwise, so a non-root destination and
offset are never inspected); validate via check_restrictions with that
`dst`; enter, wait src READ and — root only — dest WRITE, issue ncclReduce
(the non-root call passes a NULL recvbuff), record src READ and — root
only — dest WRITE, exit.  `ASSERT_BUF(dest)` on the root is modelled as an
assertion-failure status for a root caller passing no destination. -/
def reduce (e : Env) (src : Buf) (offsrc : Nat) (dest : Option Buf)
    (offdest : Nat) (count : Nat) (tc : ElType) (oc : RedOp) (root : Int)
    (comm : Comm) : Status × List Ev :=
  if ¬ e.rankOk then (.error .comm, [])
  else if comm.rank = root ∧ dest = none then (.error .misc, [])
  else
    let dst := if comm.rank = root then dest else none
    match check_restrictions src offsrc dst offdest count tc oc comm true with
    | .error cc => (.error cc, [])
    | .ok =>
      let s0 : St := ⟨[.enter], 0, 0, 0⟩
      match syncList e [.wait .src 0 .read] s0 with
      | .error (cc, s) => (.error cc, s.tr ++ [.exit])
      | .ok s1 =>
        match (if comm.rank = root then syncList e [.wait .dst 0 .write] s1
               else .ok s1) with
        | .error (cc, s) => (.error cc, s.tr ++ [.exit])
        | .ok s2 =>
          let s3 : St := { s2 with tr := s2.tr ++ [.vendor "ncclReduce"] }
          if ¬ e.ncclOk then (.error .comm, s3.tr ++ [.exit])
          else
            match syncList e [.record .src 0 .read] s3 with
            | .error (cc, s) => (.error cc, s.tr ++ [.exit])
            | .ok s4 =>
              match (if comm.rank = root then syncList e [.record .dst 0 .write] s4
                     else .ok s4) with
              | .error (cc, s) => (.error cc, s.tr ++ [.exit])
              | .ok s5 => (.ok, s5.tr ++ [.exit])

/-- A two-participant communicator on context 0 whose caller has rank 0. -/
def comm0 : Comm := ⟨0, 0, 2⟩

/-- Events that are scratch allocations/releases. -/
def isScratchEv : Ev → Bool
  | .alloc _ _ => true
  | .release _ => true
  | _ => false

/-- The scratch allocation/release subsequence of a trace. -/
def scrOf (tr : List Ev) : List Ev := tr.filter isScratchEv

/-- The alloc events for scratch id `id`. -/
def isAllocId (id : Nat) : Ev → Bool
  | .alloc j _ => j == id
  | _ => false

/-- The release events for scratch id `id`. -/
def isRelId (id : Nat) : Ev → Bool
  | .release j => j == id
  | _ => false

/-- Every scratch buffer an invocation allocates is released exactly once and
never allocated twice. -/
def scratchBalanced (tr : List Ev) : Prop :=
  ∀ id, tr.countP (isAllocId id) = tr.countP (isRelId id) ∧
    tr.countP (isAllocId id) ≤ 1

/-- The vendor (non-batched) calls named `n`. -/
def isVendorName (n : String) : Ev → Bool
  | .vendor m => m == n
  | _ => false

/-- The vendor batched (pointer-array) calls. -/
def isVendorB : Ev → Bool
  | .vendorB _ _ _ _ => true
  | _ => false

/-- The kernel objects launched during an invocation. -/
def launchedKernels (tr : List Ev) : List String :=
  tr.filterMap fun ev => match ev with
    | .kern n _ _ _ => some n
    | _ => none

/-- The modes of the wait events for operand `o` of a trace, in order. -/
def waitModes (o : Od) (tr : List Ev) : List WMode :=
  tr.filterMap fun ev => match ev with
    | .wait o' _ m => if o' = o then some m else none
    | _ => none

/-- The modes of the record events for operand `o` of a trace, in order. -/
def recordModes (o : Od) (tr : List Ev) : List WMode :=
  tr.filterMap fun ev => match ev with
    | .record o' _ m => if o' = o then some m else none
    | _ => none

/-- A batched gemv call whose M is so large that the row-block count 65536
exceeds the maximum grid extent. -/
def gemvArgsHuge : GemvBatchArgs :=
  { order := .colMajor, transA := .noTrans, M := 33554432, N := 1, alpha := 1,
    beta := 1, lda := 1, incX := 1, incY := 1, batchCount := 1, flags := 0 }

/-- The row-dimension grid count `gs[0]` of the batched gemv path before the
65535 clamp. -/
def gemvRawG0 (M bc : Nat) : Nat :=
  (M + (gemvBatchLs M bc).1 - 1) / (gemvBatchLs M bc).1

/-- The batch-dimension grid count `gs[1]` of the batched gemv path before
the 65535 clamp. -/
def gemvRawG1 (M bc : Nat) : Nat :=
  (bc + (gemvBatchLs M bc).2 - 1) / (gemvBatchLs M bc).2

/-- Hazard events on the destination operand. -/
def isDstEv : Ev → Bool
  | .wait .dst _ _ => true
  | .record .dst _ _ => true
  | _ => false

lemma syncList_ok_tr {e : Env} {l : List Ev} :
    ∀ {s s' : St}, syncList e l s = .ok s' → s'.tr = s.tr ++ l := by
  induction l with
  | nil => intro s s' h; cases h; simp
  | cons ev rest ih =>
    intro s s' h
    rw [syncList, sync1] at h
    cases hr : e.syncRes s.ns with
    | ok =>
      rw [hr] at h
      have := ih h
      simp [this]
    | error cc => rw [hr] at h; simp at h

lemma syncList_stOf_tr (e : Env) (l : List Ev) :
    ∀ s : St, ∃ t, (stOf (syncList e l s)).tr = s.tr ++ t ∧ ∀ ev ∈ t, ev ∈ l := by
  induction l with
  | nil => intro s; exact ⟨[], by simp [syncList, stOf], by simp⟩
  | cons ev rest ih =>
    intro s
    rw [syncList, sync1]
    cases hr : e.syncRes s.ns with
    | ok =>
      obtain ⟨t, ht, hm⟩ := ih { s with tr := s.tr ++ [ev], ns := s.ns + 1 }
      refine ⟨ev :: t, ?_, ?_⟩
      · simpa using ht
      · intro ev' hev'
        rcases hev' with _ | hev'
        · exact List.mem_cons_self ev rest
        · exact List.mem_cons_of_mem ev (hm ev' (by assumption))
    | error cc =>
      exact ⟨[ev], by simp [stOf], by simp⟩

lemma syncItems_stOf_tr (e : Env) (evs : Nat → List Ev) :
    ∀ (k i : Nat) (s : St), ∃ t, (stOf (syncItems e evs i k s)).tr = s.tr ++ t ∧
      ∀ ev ∈ t, ∃ j, ev ∈ evs j := by
  intro k
  induction k with
  | zero => intro i s; exact ⟨[], by simp [syncItems, stOf], by simp⟩
  | succ k ih =>
    intro i s
    rw [syncItems]
    cases hs : syncList e (evs i) s with
    | ok s1 =>
      obtain ⟨t1, ht1, hm1⟩ := syncList_stOf_tr e (evs i) s
      rw [hs] at ht1
      simp only [stOf] at ht1
      obtain ⟨t2, ht2, hm2⟩ := ih (i + 1) s1
      refine ⟨t1 ++ t2, ?_, ?_⟩
      · rw [ht2, ht1, List.append_assoc]
      · intro ev hev
        rcases List.mem_append.mp hev with h | h
        · exact ⟨i, hm1 ev h⟩
        · exact hm2 ev h
    | error es =>
      obtain ⟨t1, ht1, hm1⟩ := syncList_stOf_tr e (evs i) s
      rw [hs] at ht1
      exact ⟨t1, ht1, fun ev hev => ⟨i, hm1 ev hev⟩⟩

lemma syncItems_ok_stOf {e : Env} {evs : Nat → List Ev} {i k : Nat} {s s' : St}
    (h : syncItems e evs i k s = .ok s') : stOf (syncItems e evs i k s) = s' := by
  rw [h]; rfl

lemma scrOf_append (t1 t2 : List Ev) : scrOf (t1 ++ t2) = scrOf t1 ++ scrOf t2 :=
  List.filter_append t1 t2

lemma scrOf_syncItems (e : Env) (evs : Nat → List Ev) (k i : Nat) (s : St)
    (h : ∀ j ev, ev ∈ evs j → isScratchEv ev = false) :
    scrOf (stOf (syncItems e evs i k s)).tr = scrOf s.tr := by
  obtain ⟨t, ht, hm⟩ := syncItems_stOf_tr e evs k i s
  rw [ht]
  unfold scrOf
  have hnil : List.filter isScratchEv t = [] := by
    refine List.filter_eq_nil_iff.mpr ?_
    intro ev hev
    obtain ⟨j, hj⟩ := hm ev hev
    simp [h j ev hj]
  rw [List.filter_append, hnil, List.append_nil]

lemma alloc1_none_tr {e : Env} {id sz : Nat} {s s1 : St}
    (h : alloc1 e id sz s = (none, s1)) : s1.tr = s.tr ++ [.alloc id sz] := by
  unfold alloc1 at h
  split at h
  · simp only [Prod.mk.injEq] at h
    rw [← h.2]
  · simp at h

lemma alloc1_some_tr {e : Env} {id sz : Nat} {cc : ErrCode} {s s1 : St}
    (h : alloc1 e id sz s = (some cc, s1)) : s1.tr = s.tr := by
  unfold alloc1 at h
  split at h
  · simp at h
  · simp only [Prod.mk.injEq] at h
    rw [← h.2]

lemma blas1_tr {e : Env} {ev : Ev} {r : Option ErrCode} {s s1 : St}
    (h : blas1 e ev s = (r, s1)) : s1.tr = s.tr ++ [ev] := by
  unfold blas1 at h
  split at h <;>
  · simp only [Prod.mk.injEq] at h
    rw [← h.2]

lemma countP_scrOf (p : Ev → Bool) (hp : ∀ ev, p ev = true → isScratchEv ev = true) :
    ∀ tr : List Ev, (scrOf tr).countP p = tr.countP p := by
  intro tr
  unfold scrOf
  induction tr with
  | nil => rfl
  | cons ev tr ih =>
    by_cases h : isScratchEv ev = true
    · rw [List.filter_cons_of_pos h, List.countP_cons, List.countP_cons, ih]
    · have hpe : p ev = false := by
        cases hpe : p ev
        · rfl
        · exact absurd (hp ev hpe) h
      rw [List.filter_cons_of_neg h, List.countP_cons, hpe, ih]
      simp

lemma scratchBalanced_of_scrOf {tr : List Ev} 
    (h : ∀ id, (scrOf tr).countP (isAllocId id) = (scrOf tr).countP (isRelId id) ∧
      (scrOf tr).countP (isAllocId id) ≤ 1) : scratchBalanced tr := by
  intro id
  have ha := countP_scrOf (isAllocId id) (by intro ev hev; cases ev <;> simp_all [isAllocId, isScratchEv]) tr
  have hr := countP_scrOf (isRelId id) (by intro ev hev; cases ev <;> simp_all [isRelId, isScratchEv]) tr
  rw [← ha, ← hr]
  exact h id

lemma tailExit_snd (r : Except (ErrCode × St) St) :
    (tailExit r).2 = (stOf r).tr ++ [Ev.exit] := by
  rcases r with ⟨cc, s⟩ | s <;> rfl

lemma tailExit_ok (r : Except (ErrCode × St) St) (h : (tailExit r).1 = .ok) :
    ∃ s, r = .ok s := by
  rcases r with ⟨cc, s⟩ | s
  · exact absurd h (by simp [tailExit])
  · exact ⟨s, rfl⟩

lemma gemvBatch_scr (nm : GemvNames) (e : Env) (a : GemvBatchArgs) :
    scrOf (gemvBatch nm e a).2 = [] ∨
    scrOf (gemvBatch nm e a).2 = [.alloc 0 (8 * a.batchCount), .release 0] ∨
    scrOf (gemvBatch nm e a).2 =
      [.alloc 0 (8 * a.batchCount), .alloc 1 (8 * a.batchCount),
       .release 0, .release 1] ∨
    scrOf (gemvBatch nm e a).2 =
      [.alloc 0 (8 * a.batchCount), .alloc 1 (8 * a.batchCount),
       .alloc 2 (8 * a.batchCount), .release 0, .release 1, .release 2] := by
  by_cases h1 : a.flags ≠ 0
  · left; simp [gemvBatch, h1, scrOf]
  by_cases h2 : a.alpha ≠ 1 ∨ a.beta ≠ 1
  · left; simp [gemvBatch, h1, h2, scrOf]
  have hw : ∀ (j : Nat), ∀ ev ∈ [Ev.wait .a j .read, Ev.wait .x j .read, Ev.wait .y j .all],
      isScratchEv ev = false := by
    intro j ev hev
    simp at hev
    rcases hev with rfl | rfl | rfl <;> rfl
  have hr : ∀ (j : Nat),
      ∀ ev ∈ [Ev.record .a j .read, Ev.record .x j .read, Ev.record .y j .all],
      isScratchEv ev = false := by
    intro j ev hev
    simp at hev
    rcases hev with rfl | rfl | rfl <;> rfl
  have hscr := scrOf_syncItems e
    (fun i => [Ev.wait .a i .read, Ev.wait .x i .read, Ev.wait .y i .all])
    a.batchCount 0 ⟨[.enter], 0, 0, 0⟩ hw
  rcases hsi : syncItems e
      (fun i => [Ev.wait .a i .read, Ev.wait .x i .read, Ev.wait .y i .all])
      0 a.batchCount ⟨[.enter], 0, 0, 0⟩ with ⟨cc, s⟩ | s <;>
    rw [hsi] at hscr <;> simp only [stOf] at hscr <;>
    have hs0 : List.filter isScratchEv s.tr = [] := by
      simpa [scrOf, isScratchEv] using hscr
  · -- wait loop failed: trace is s.tr ++ [exit], no scratch events
    left
    simp only [gemvBatch, h1, h2, hsi, if_false, ite_false]
    simp [scrOf, List.filter_append, hs0, isScratchEv]
  · -- wait loop succeeded
    simp only [gemvBatch, h1, h2, hsi, if_false, ite_false]
    rcases ha0 : alloc1 e 0 (8 * a.batchCount) s with ⟨r0, s1⟩
    rcases r0 with _ | cc0
    on_goal 2 =>
      left
      simp only [ha0]
      rw [alloc1_some_tr ha0]
      simpa [scrOf] using hs0
    rcases ha1 : alloc1 e 1 (8 * a.batchCount) s1 with ⟨r1, s2⟩
    rcases r1 with _ | cc1
    on_goal 2 =>
      right; left
      simp only [ha0, ha1]
      rw [alloc1_some_tr ha1, alloc1_none_tr ha0]
      simp [scrOf, List.filter_append, hs0, isScratchEv]
    rcases ha2 : alloc1 e 2 (8 * a.batchCount) s2 with ⟨r2, s3⟩
    rcases r2 with _ | cc2
    on_goal 2 =>
      right; right; left
      simp only [ha0, ha1, ha2]
      rw [alloc1_some_tr ha2, alloc1_none_tr ha1, alloc1_none_tr ha0]
      simp [scrOf, List.filter_append, hs0, isScratchEv]
    -- all three allocations succeeded
    right; right; right
    simp only [ha0, ha1, ha2]
    have h3 : s3.tr = s.tr ++ [Ev.alloc 0 (8 * a.batchCount)] ++
        [Ev.alloc 1 (8 * a.batchCount)] ++ [Ev.alloc 2 (8 * a.batchCount)] := by
      rw [alloc1_none_tr ha2, alloc1_none_tr ha1, alloc1_none_tr ha0]
    rcases hk : e.kernRes with _ | cck
    · -- kernel launch ok: records tail
      simp only [hk]
      rw [tailExit_snd, scrOf_append, scrOf_syncItems e _ a.batchCount 0 _ hr]
      simp [scrOf, List.filter_append, h3, hs0, isScratchEv]
    · -- kernel launch failed: releases then exit
      simp only [hk]
      simp [scrOf, List.filter_append, h3, hs0, isScratchEv]

lemma gerBatch_scr (kn : String) (e : Env) (a : GerBatchArgs) :
    scrOf (gerBatch kn e a).2 = [] ∨
    scrOf (gerBatch kn e a).2 = [.alloc 0 (8 * a.batchCount), .release 0] ∨
    scrOf (gerBatch kn e a).2 =
      [.alloc 0 (8 * a.batchCount), .alloc 1 (8 * a.batchCount),
       .release 0, .release 1] ∨
    scrOf (gerBatch kn e a).2 =
      [.alloc 0 (8 * a.batchCount), .alloc 1 (8 * a.batchCount),
       .alloc 2 (8 * a.batchCount), .release 0, .release 1, .release 2] := by
  by_cases h1 : a.flags ≠ 0
  · left; simp [gerBatch, h1, scrOf]
  by_cases h2 : (gerBatchLsGs a.M a.N a.incX a.batchCount).2.1 *
      (gerBatchLsGs a.M a.N a.incX a.batchCount).2.2.1 *
      (gerBatchLsGs a.M a.N a.incX a.batchCount).2.2.2 > 65535 ∧
      (gerBatchLsGs a.M a.N a.incX a.batchCount).2.1 *
      (gerBatchLsGs a.M a.N a.incX a.batchCount).2.2.1 > 65535
  · left; simp [gerBatch, h1, h2, scrOf]
  have hw : ∀ (j : Nat), ∀ ev ∈ [Ev.wait .a j .all, Ev.wait .x j .read, Ev.wait .y j .read],
      isScratchEv ev = false := by
    intro j ev hev
    simp at hev
    rcases hev with rfl | rfl | rfl <;> rfl
  have hr : ∀ (j : Nat),
      ∀ ev ∈ [Ev.record .a j .read, Ev.record .x j .read, Ev.record .y j .all],
      isScratchEv ev = false := by
    intro j ev hev
    simp at hev
    rcases hev with rfl | rfl | rfl <;> rfl
  have hscr := scrOf_syncItems e
    (fun i => [Ev.wait .a i .all, Ev.wait .x i .read, Ev.wait .y i .read])
    a.batchCount 0 ⟨[.enter], 0, 0, 0⟩ hw
  rcases hsi : syncItems e
      (fun i => [Ev.wait .a i .all, Ev.wait .x i .read, Ev.wait .y i .read])
      0 a.batchCount ⟨[.enter], 0, 0, 0⟩ with ⟨cc, s⟩ | s <;>
    rw [hsi] at hscr <;> simp only [stOf] at hscr <;>
    have hs0 : List.filter isScratchEv s.tr = [] := by
      simpa [scrOf, isScratchEv] using hscr
  · left
    simp only [gerBatch, h1, h2, hsi, if_false, ite_false]
    simp [scrOf, List.filter_append, hs0, isScratchEv]
  · simp only [gerBatch, h1, h2, hsi, if_false, ite_false]
    rcases ha0 : alloc1 e 0 (8 * a.batchCount) s with ⟨r0, s1⟩
    rcases r0 with _ | cc0
    on_goal 2 =>
      left
      simp only [ha0]
      rw [alloc1_some_tr ha0]
      simpa [scrOf] using hs0
    rcases ha1 : alloc1 e 1 (8 * a.batchCount) s1 with ⟨r1, s2⟩
    rcases r1 with _ | cc1
    on_goal 2 =>
      right; left
      simp only [ha0, ha1]
      rw [alloc1_some_tr ha1, alloc1_none_tr ha0]
      simp [scrOf, List.filter_append, hs0, isScratchEv]
    rcases ha2 : alloc1 e 2 (8 * a.batchCount) s2 with ⟨r2, s3⟩
    rcases r2 with _ | cc2
    on_goal 2 =>
      right; right; left
      simp only [ha0, ha1, ha2]
      rw [alloc1_some_tr ha2, alloc1_none_tr ha1, alloc1_none_tr ha0]
      simp [scrOf, List.filter_append, hs0, isScratchEv]
    right; right; right
    simp only [ha0, ha1, ha2]
    have h3 : s3.tr = s.tr ++ [Ev.alloc 0 (8 * a.batchCount)] ++
        [Ev.alloc 1 (8 * a.batchCount)] ++ [Ev.alloc 2 (8 * a.batchCount)] := by
      rw [alloc1_none_tr ha2, alloc1_none_tr ha1, alloc1_none_tr ha0]
    rcases hk : e.kernRes with _ | cck
    · simp only [hk]
      rw [tailExit_snd, scrOf_append, scrOf_syncItems e _ a.batchCount 0 _ hr]
      simp [scrOf, List.filter_append, h3, hs0, isScratchEv]
    · simp only [hk]
      simp [scrOf, List.filter_append, h3, hs0, isScratchEv]

lemma gemmBigItems_stOf_tr (e : Env) (nm : String) :
    ∀ (k i : Nat) (s : St), ∃ t, (stOf (gemmBigItems e nm i k s)).tr = s.tr ++ t ∧
      ∀ ev ∈ t, (∃ o j m, ev = Ev.wait o j m) ∨ (∃ o j m, ev = Ev.record o j m) ∨
        ev = Ev.vendor nm := by
  intro k
  induction k with
  | zero => intro i s; exact ⟨[], by simp [gemmBigItems, stOf], by simp⟩
  | succ k ih =>
    intro i s
    rw [gemmBigItems]
    rcases hs1 : syncList e [Ev.wait .a i .read, Ev.wait .b i .read, Ev.wait .c i .all] s with
        ⟨cc, s1⟩ | s1
    · obtain ⟨t1, ht1, hm1⟩ := syncList_stOf_tr e _ s
      rw [hs1] at ht1
      refine ⟨t1, ht1, fun ev hev => ?_⟩
      have := hm1 ev hev
      simp at this
      rcases this with rfl | rfl | rfl
      · exact Or.inl ⟨_, _, _, rfl⟩
      · exact Or.inl ⟨_, _, _, rfl⟩
      · exact Or.inl ⟨_, _, _, rfl⟩
    · obtain ⟨t1, ht1, hm1⟩ := syncList_stOf_tr e
        [Ev.wait .a i .read, Ev.wait .b i .read, Ev.wait .c i .all] s
      rw [hs1] at ht1
      simp only [stOf] at ht1
      rcases hb : blas1 e (Ev.vendor nm) s1 with ⟨rb, s2⟩
      have hbt : s2.tr = s1.tr ++ [Ev.vendor nm] := blas1_tr hb
      rcases rb with _ | ccb
      · rcases hs2 : syncList e
            [Ev.record .a i .read, Ev.record .b i .read, Ev.record .c i .all] s2 with
            ⟨cc2, s3⟩ | s3
        · obtain ⟨t2, ht2, hm2⟩ := syncList_stOf_tr e _ s2
          rw [hs2] at ht2
          simp only [stOf] at ht2
          simp only [hs1, hb, hs2, stOf]
          refine ⟨t1 ++ [Ev.vendor nm] ++ t2, ?_, ?_⟩
          · rw [ht2, hbt, ht1]
            simp [List.append_assoc]
          · intro ev hev
            simp only [List.mem_append] at hev
            rcases hev with (hev | hev) | hev
            · have := hm1 ev hev
              simp at this
              rcases this with rfl | rfl | rfl
              · exact Or.inl ⟨_, _, _, rfl⟩
              · exact Or.inl ⟨_, _, _, rfl⟩
              · exact Or.inl ⟨_, _, _, rfl⟩
            · simp at hev
              subst hev
              exact Or.inr (Or.inr rfl)
            · have := hm2 ev hev
              simp at this
              rcases this with rfl | rfl | rfl
              · exact Or.inr (Or.inl ⟨_, _, _, rfl⟩)
              · exact Or.inr (Or.inl ⟨_, _, _, rfl⟩)
              · exact Or.inr (Or.inl ⟨_, _, _, rfl⟩)
        · obtain ⟨t2, ht2, hm2⟩ := syncList_stOf_tr e
            [Ev.record .a i .read, Ev.record .b i .read, Ev.record .c i .all] s2
          rw [hs2] at ht2
          simp only [stOf] at ht2
          obtain ⟨t3, ht3, hm3⟩ := ih (i + 1) s3
          simp only [hs1, hb, hs2]
          refine ⟨t1 ++ [Ev.vendor nm] ++ t2 ++ t3, ?_, ?_⟩
          · rw [ht3, ht2, hbt, ht1]
            simp [List.append_assoc]
          · intro ev hev
            simp only [List.mem_append] at hev
            rcases hev with ((hev | hev) | hev) | hev
            · have := hm1 ev hev
              simp at this
              rcases this with rfl | rfl | rfl
              · exact Or.inl ⟨_, _, _, rfl⟩
              · exact Or.inl ⟨_, _, _, rfl⟩
              · exact Or.inl ⟨_, _, _, rfl⟩
            · simp at hev
              subst hev
              exact Or.inr (Or.inr rfl)
            · have := hm2 ev hev
              simp at this
              rcases this with rfl | rfl | rfl
              · exact Or.inr (Or.inl ⟨_, _, _, rfl⟩)
              · exact Or.inr (Or.inl ⟨_, _, _, rfl⟩)
              · exact Or.inr (Or.inl ⟨_, _, _, rfl⟩)
            · exact hm3 ev hev
      · simp only [hs1, hb, stOf]
        refine ⟨t1 ++ [Ev.vendor nm], ?_, ?_⟩
        · rw [hbt, ht1, List.append_assoc]
        · intro ev hev
          simp only [List.mem_append] at hev
          rcases hev with hev | hev
          · have := hm1 ev hev
            simp at this
            rcases this with rfl | rfl | rfl
            · exact Or.inl ⟨_, _, _, rfl⟩
            · exact Or.inl ⟨_, _, _, rfl⟩
            · exact Or.inl ⟨_, _, _, rfl⟩
          · simp at hev
            subst hev
            exact Or.inr (Or.inr rfl)

lemma gemmBatch_scr (nm : GemmNames) (e : Env) (a : GemmBatchArgs) :
    scrOf (gemmBatch nm e a).2 = [] ∨
    scrOf (gemmBatch nm e a).2 = [.alloc 0 (8 * a.batchCount * 3), .release 0] := by
  by_cases h1 : gemmOverflow a = true
  · left; simp [gemmBatch, h1, scrOf]
  by_cases h2 : (if a.order = .rowMajor then a.N else a.M) *
      (if a.order = .rowMajor then a.M else a.N) * a.K > 650 * 650 * 650
  · -- large-volume branch: one vendor call per item, no scratch
    left
    simp only [gemmBatch, h1, h2, if_false, ite_true, Bool.false_eq_true, if_true]
    obtain ⟨t, ht, hm⟩ := gemmBigItems_stOf_tr e nm.gemm a.batchCount 0 ⟨[.enter], 0, 0, 0⟩
    rw [tailExit_snd, ht]
    simp only [scrOf, List.filter_append]
    have hnil : List.filter isScratchEv t = [] := by
      refine List.filter_eq_nil_iff.mpr ?_
      intro ev hev
      rcases hm ev hev with ⟨o, j, m, rfl⟩ | ⟨o, j, m, rfl⟩ | rfl <;> simp [isScratchEv]
    rw [hnil]
    rfl
  · -- pointer-array branch
    have hw : ∀ (j : Nat), ∀ ev ∈ [Ev.wait .a j .read, Ev.wait .b j .read, Ev.wait .c j .all],
        isScratchEv ev = false := by
      intro j ev hev
      simp at hev
      rcases hev with rfl | rfl | rfl <;> rfl
    have hr : ∀ (j : Nat),
        ∀ ev ∈ [Ev.record .a j .read, Ev.record .b j .read, Ev.record .c j .all],
        isScratchEv ev = false := by
      intro j ev hev
      simp at hev
      rcases hev with rfl | rfl | rfl <;> rfl
    have hscr := scrOf_syncItems e
      (fun i => [Ev.wait .a i .read, Ev.wait .b i .read, Ev.wait .c i .all])
      a.batchCount 0 ⟨[.enter], 0, 0, 0⟩ hw
    rcases hsi : syncItems e
        (fun i => [Ev.wait .a i .read, Ev.wait .b i .read, Ev.wait .c i .all])
        0 a.batchCount ⟨[.enter], 0, 0, 0⟩ with ⟨cc, s⟩ | s <;>
      rw [hsi] at hscr <;> simp only [stOf] at hscr <;>
      have hs0 : List.filter isScratchEv s.tr = [] := by
        simpa [scrOf, isScratchEv] using hscr
    · left
      simp only [gemmBatch, h1, h2, hsi, if_false, ite_false, Bool.false_eq_true]
      simp [scrOf, List.filter_append, hs0, isScratchEv]
    · simp only [gemmBatch, h1, h2, hsi, if_false, ite_false, Bool.false_eq_true]
      rcases ha0 : alloc1 e 0 (8 * a.batchCount * 3) s with ⟨r0, s1⟩
      rcases r0 with _ | cc0
      on_goal 2 =>
        left
        simp only [ha0]
        rw [alloc1_some_tr ha0]
        simp [scrOf, List.filter_append, hs0, isScratchEv]
      have h1tr : s1.tr = s.tr ++ [Ev.alloc 0 (8 * a.batchCount * 3)] := alloc1_none_tr ha0
      rcases hwr : e.writeRes with _ | ccw
      on_goal 2 =>
        right
        simp only [ha0, hwr]
        simp [scrOf, List.filter_append, h1tr, hs0, isScratchEv]
      simp only [ha0, hwr]
      rcases hb : blas1 e
          (Ev.vendorB nm.gemmB 0 (a.batchCount * 8) (a.batchCount * 8 * 2))
          { s1 with tr := s1.tr ++ [Ev.writeScratch 0 (8 * a.batchCount * 3)] } with ⟨rb, s3⟩
      have h3tr := blas1_tr hb
      rcases rb with _ | ccb
      · right
        simp only [hb]
        rw [tailExit_snd, scrOf_append, scrOf_syncItems e _ a.batchCount 0 _ hr]
        simp [scrOf, List.filter_append, h3tr, h1tr, hs0, isScratchEv]
      · right
        simp only [hb]
        simp [scrOf, List.filter_append, h3tr, h1tr, hs0, isScratchEv]

/-- C6: for every pointer-batched gemm and every batched gemv/ger call (in
either precision — the entry points are the instantiations of these three
cores) and every environment (any combination of failing external calls),
every scratch buffer staging the per-item operand-pointer arrays that the
call allocates is released exactly once before the function returns, on the
success path and on every post-allocation error path (failed pointer-array
write, failed vendor batched call, failed kernel launch). -/
theorem batch_scratch_released_once (nmG : GemmNames) (nmV : GemvNames)
    (kn : String) (e1 e2 e3 : Env) (a : GemmBatchArgs) (b : GemvBatchArgs)
    (c : GerBatchArgs) :
    scratchBalanced (gemmBatch nmG e1 a).2 ∧
    scratchBalanced (gemvBatch nmV e2 b).2 ∧
    scratchBalanced (gerBatch kn e3 c).2 := by
  refine ⟨?_, ?_, ?_⟩
  · rcases gemmBatch_scr nmG e1 a with h | h <;>
      refine scratchBalanced_of_scrOf (fun id => ?_) <;> rw [h] <;>
      constructor <;>
      simp [isAllocId, isRelId, List.countP_cons, List.countP_nil] <;>
      split_ifs <;> simp_all <;> omega
  · rcases gemvBatch_scr nmV e2 b with h | h | h | h <;>
      refine scratchBalanced_of_scrOf (fun id => ?_) <;> rw [h] <;>
      constructor <;>
      simp [isAllocId, isRelId, List.countP_cons, List.countP_nil] <;>
      split_ifs <;> simp_all <;> omega
  · rcases gerBatch_scr kn e3 c with h | h | h | h <;>
      refine scratchBalanced_of_scrOf (fun id => ?_) <;> rw [h] <;>
      constructor <;>
      simp [isAllocId, isRelId, List.countP_cons, List.countP_nil] <;>
      split_ifs <;> simp_all <;> omega

lemma gemmBigItems_ok_countP (e : Env) (nm : String) (p : Ev → Bool)
    (hw : ∀ o j m, p (Ev.wait o j m) = false)
    (hrec : ∀ o j m, p (Ev.record o j m) = false) :
    ∀ (k i : Nat) (s s' : St), gemmBigItems e nm i k s = .ok s' →
      s'.tr.countP p = s.tr.countP p +
        k * (if p (Ev.vendor nm) = true then 1 else 0) := by
  intro k
  induction k with
  | zero =>
    intro i s s' hh
    rw [gemmBigItems] at hh
    cases hh
    simp
  | succ k ih =>
    intro i s s' hh
    rw [gemmBigItems] at hh
    rcases hs1 : syncList e [Ev.wait .a i .read, Ev.wait .b i .read, Ev.wait .c i .all] s with
        ⟨cc, s1⟩ | s1
    · rw [hs1] at hh
      exact absurd hh (by simp)
    · rw [hs1] at hh
      dsimp only at hh
      rcases hb : blas1 e (Ev.vendor nm) s1 with ⟨rb, s2⟩
      rcases rb with _ | ccb
      · rw [hb] at hh
        dsimp only at hh
        rcases hs2 : syncList e
            [Ev.record .a i .read, Ev.record .b i .read, Ev.record .c i .all] s2 with
            ⟨cc2, s3⟩ | s3
        · rw [hs2] at hh
          exact absurd hh (by simp)
        · rw [hs2] at hh
          dsimp only at hh
          have h1 := syncList_ok_tr hs1
          have hbt := blas1_tr hb
          have h2 := syncList_ok_tr hs2
          have ihh := ih (i + 1) s3 s' hh
          rw [ihh, h2, hbt, h1]
          simp only [List.countP_append, List.countP_cons, List.countP_nil, hw, hrec]
          cases hpv : p (Ev.vendor nm) <;> simp [hpv] <;> ring
      · rw [hb] at hh
        dsimp only at hh
        exact absurd hh (by simp)

/-- C7: a pointer-batched gemm call that returns success issued one vendor
gemm per batch item exactly when the per-item volume M·N·K exceeds 650³, and
otherwise issued a single vendor batched call whose three device
pointer-arrays live at offsets 0, batchCount·8 and batchCount·8·2 of one
scratch buffer of 3·batchCount pointers (three equal consecutive regions);
the branch depends only on M, N, K, never on the batch count.  `sgemmBatch`
and `dgemmBatch` are the two instantiations of `gemmBatch`. -/
theorem gemmBatch_dispatch_threshold (nm : GemmNames) (e : Env)
    (a : GemmBatchArgs) (h : (gemmBatch nm e a).1 = .ok) :
    (a.M * a.N * a.K > 650 * 650 * 650 →
      (gemmBatch nm e a).2.countP (isVendorName nm.gemm) = a.batchCount ∧
      (gemmBatch nm e a).2.filter isVendorB = []) ∧
    (a.M * a.N * a.K ≤ 650 * 650 * 650 →
      (gemmBatch nm e a).2.countP (isVendorName nm.gemm) = 0 ∧
      (gemmBatch nm e a).2.filter isVendorB =
        [Ev.vendorB nm.gemmB 0 (a.batchCount * 8) (a.batchCount * 8 * 2)] ∧
      Ev.alloc 0 (8 * a.batchCount * 3) ∈ (gemmBatch nm e a).2) := by
  by_cases hov : gemmOverflow a = true
  · exfalso
    simp [gemmBatch, hov] at h
  have hif : gemmOverflow a = false := by simpa using hov
  have hprod : (if a.order = Order.rowMajor then a.N else a.M) *
      (if a.order = Order.rowMajor then a.M else a.N) * a.K = a.M * a.N * a.K := by
    split_ifs <;> ring
  constructor
  · -- large-volume branch
    intro hgt
    have hcond : (if a.order = Order.rowMajor then a.N else a.M) *
        (if a.order = Order.rowMajor then a.M else a.N) * a.K > 650 * 650 * 650 := by
      rw [hprod]; exact hgt
    simp only [gemmBatch, hif, Bool.false_eq_true, if_false, hcond, if_true] at h ⊢
    obtain ⟨s, hs⟩ := tailExit_ok _ h
    have hcount := gemmBigItems_ok_countP e nm.gemm (isVendorName nm.gemm)
      (fun o j m => rfl) (fun o j m => rfl) a.batchCount 0 ⟨[.enter], 0, 0, 0⟩ s hs
    obtain ⟨t, ht, hm⟩ := gemmBigItems_stOf_tr e nm.gemm a.batchCount 0 ⟨[.enter], 0, 0, 0⟩
    rw [hs] at ht
    simp only [stOf] at ht
    constructor
    · rw [tailExit_snd, hs]
      simp only [stOf, List.countP_append]
      rw [hcount]
      simp [isVendorName]
    · rw [tailExit_snd, hs]
      simp only [stOf, List.filter_append]
      rw [ht]
      have hnil : List.filter isVendorB t = [] := by
        refine List.filter_eq_nil_iff.mpr ?_
        intro ev hev
        rcases hm ev hev with ⟨o, j, m, rfl⟩ | ⟨o, j, m, rfl⟩ | rfl <;> simp [isVendorB]
      rw [List.filter_append, hnil]
      rfl
  · -- pointer-array branch
    intro hle
    have hcond : ¬ ((if a.order = Order.rowMajor then a.N else a.M) *
        (if a.order = Order.rowMajor then a.M else a.N) * a.K > 650 * 650 * 650) := by
      rw [hprod]; omega
    simp only [gemmBatch, hif, Bool.false_eq_true, if_false, hcond] at h ⊢
    rcases hsi : syncItems e
        (fun i => [Ev.wait .a i .read, Ev.wait .b i .read, Ev.wait .c i .all])
        0 a.batchCount ⟨[.enter], 0, 0, 0⟩ with ⟨cc, s⟩ | s <;>
      simp only [hsi] at h ⊢
    · exact absurd h (by simp)
    obtain ⟨t1, ht1, hm1⟩ := syncItems_stOf_tr e
      (fun i => [Ev.wait .a i .read, Ev.wait .b i .read, Ev.wait .c i .all])
      a.batchCount 0 ⟨[.enter], 0, 0, 0⟩
    rw [hsi] at ht1
    simp only [stOf] at ht1
    rcases ha0 : alloc1 e 0 (8 * a.batchCount * 3) s with ⟨r0, s1⟩
    rcases r0 with _ | cc0 <;> simp only [ha0] at h ⊢
    on_goal 2 => exact absurd h (by simp)
    have h1tr := alloc1_none_tr ha0
    rcases hwr : e.writeRes with _ | ccw <;> simp only [hwr] at h ⊢
    on_goal 2 => exact absurd h (by simp)
    rcases hb : blas1 e
        (Ev.vendorB nm.gemmB 0 (a.batchCount * 8) (a.batchCount * 8 * 2))
        { s1 with tr := s1.tr ++ [Ev.writeScratch 0 (8 * a.batchCount * 3)] } with ⟨rb, s3⟩
    have h3tr := blas1_tr hb
    rcases rb with _ | ccb <;> simp only [hb] at h ⊢
    on_goal 2 => exact absurd h (by simp)
    obtain ⟨t2, ht2, hm2⟩ := syncItems_stOf_tr e
      (fun i => [Ev.record .a i .read, Ev.record .b i .read, Ev.record .c i .all])
      a.batchCount 0 { s3 with tr := s3.tr ++ [Ev.release 0] }
    obtain ⟨s5, hs5⟩ := tailExit_ok _ h
    rw [hs5] at ht2
    simp only [stOf] at ht2
    have htr : s5.tr = [Ev.enter] ++ t1 ++ [Ev.alloc 0 (8 * a.batchCount * 3)] ++
        [Ev.writeScratch 0 (8 * a.batchCount * 3)] ++
        [Ev.vendorB nm.gemmB 0 (a.batchCount * 8) (a.batchCount * 8 * 2)] ++
        [Ev.release 0] ++ t2 := by
      rw [ht2, h3tr, h1tr, ht1]
    have hn1 : ∀ ev ∈ t1, isVendorName nm.gemm ev = false := by
      intro ev hev
      obtain ⟨j, hj⟩ := hm1 ev hev
      simp at hj
      rcases hj with rfl | rfl | rfl <;> rfl
    have hv1 : ∀ ev ∈ t1, isVendorB ev = false := by
      intro ev hev
      obtain ⟨j, hj⟩ := hm1 ev hev
      simp at hj
      rcases hj with rfl | rfl | rfl <;> rfl
    have hn2 : ∀ ev ∈ t2, isVendorName nm.gemm ev = false := by
      intro ev hev
      obtain ⟨j, hj⟩ := hm2 ev hev
      simp at hj
      rcases hj with rfl | rfl | rfl <;> rfl
    have hv2 : ∀ ev ∈ t2, isVendorB ev = false := by
      intro ev hev
      obtain ⟨j, hj⟩ := hm2 ev hev
      simp at hj
      rcases hj with rfl | rfl | rfl <;> rfl
    have hz1n : t1.countP (isVendorName nm.gemm) = 0 :=
      List.countP_eq_zero.mpr (fun ev hev => by simp [hn1 ev hev])
    have hz2n : t2.countP (isVendorName nm.gemm) = 0 :=
      List.countP_eq_zero.mpr (fun ev hev => by simp [hn2 ev hev])
    have hz1v : t1.filter isVendorB = [] :=
      List.filter_eq_nil_iff.mpr (fun ev hev => by simp [hv1 ev hev])
    have hz2v : t2.filter isVendorB = [] :=
      List.filter_eq_nil_iff.mpr (fun ev hev => by simp [hv2 ev hev])
    refine ⟨?_, ?_, ?_⟩
    · rw [tailExit_snd, hs5]
      simp only [stOf]
      rw [htr]
      simp [List.countP_append, List.countP_cons, hz1n, hz2n, isVendorName]
    · rw [tailExit_snd, hs5]
      simp only [stOf]
      rw [htr]
      simp [List.filter_append, hz1v, hz2v, isVendorB]
    · rw [tailExit_snd, hs5]
      simp only [stOf]
      rw [htr]
      simp

/-- C1: the claim says that for every linear-algebra or collective entry
point, every return path taken after entering the context's critical section
(`cuda_enter`) calls `cuda_exit` before returning a status.  The code
violates it: when the first per-item operand-pointer scratch allocation of
sgemvBatch fails inside the critical section, the function returns
`ctx->err->code` without calling `cuda_exit`, leaving the enter/exit bracket
unbalanced (the same pattern is in dgemvBatch, sgerBatch and dgerBatch). -/
theorem sgemvBatch_alloc_failure_leaks_critical_section :
    (sgemvBatch envAllocFail gemvArgs1).1 = .error .mem ∧
    (sgemvBatch envAllocFail gemvArgs1).2.count Ev.enter = 1 ∧
    (sgemvBatch envAllocFail gemvArgs1).2.count Ev.exit = 0 := by decide

/-- C2: the claim says a successful dgerBatch computes each A[i] + alpha·x[i]·y[i]^T
at double precision.  The code launches the handle's single-precision
`sgerBH_gen_small` kernel object (line 1757), not the compiled
double-precision `dgerBH_gen_small` one, so the batched rank-1 update is not
computed at the call's element type (float64). -/
theorem dgerBatch_launches_single_precision_kernel :
    (dgerBatch okEnv (gerArgs1 1)).1 = .ok ∧
    launchedKernels (dgerBatch okEnv (gerArgs1 1)).2 = ["sgerBH_gen_small"] ∧
    kernelScalar "sgerBH_gen_small" = some false ∧
    kernelScalar "dgerBH_gen_small" = some true := by decide

/-- C3: the claim says wait and record are symmetric for every operand of
every entry point.  In a successful sgerBatch call the accumulator array A is
waited on with mode ALL but recorded with mode READ, and the pure-source
operand y is waited on with READ but recorded with ALL — wait and record are
NOT symmetric on the batched ger path. -/
theorem sgerBatch_wait_record_modes_asymmetric :
    (sgerBatch okEnv (gerArgs1 1)).1 = .ok ∧
    waitModes .a (sgerBatch okEnv (gerArgs1 1)).2 = [.all] ∧
    recordModes .a (sgerBatch okEnv (gerArgs1 1)).2 = [.read] ∧
    waitModes .y (sgerBatch okEnv (gerArgs1 1)).2 = [.read] ∧
    recordModes .y (sgerBatch okEnv (gerArgs1 1)).2 = [.all] := by decide

/-- C4 counterexample: the claim says every batched gemv and every batched
ger call rejects scale factors other than alpha = beta = 1.  A batched ger
call with alpha = 2 is NOT rejected with an unsupported-parameters error — it
succeeds and launches the general-alpha kernel with alpha = 2, so device work
is issued. -/
theorem sgerBatch_alpha_two_not_rejected :
    (sgerBatch okEnv (gerArgs1 2)).1 = .ok ∧
    (sgerBatch okEnv (gerArgs1 2)).1 ≠ .error .unsupported ∧
    Ev.kern "sgerBH_gen_small" [1, 1, 1] [2, 2, 1] [2]
      ∈ (sgerBatch okEnv (gerArgs1 2)).2 := by decide

/-- C5 counterexample: the claim says the case where the offset itself is
larger than the buffer's size also fails with the out-of-bounds kind before
the critical section.  An all_reduce whose source offset (16) exceeds the
source buffer's size (8) is not rejected: the size_t capacity check
`src->sz - offsrc < op_size` wraps around, the call enters the critical
section, enqueues the collective and records hazard state, returning
success. -/
theorem all_reduce_offset_overrun_not_caught :
    (all_reduce okEnv ⟨0, 8⟩ 16 ⟨0, 64⟩ 0 1 .f32 .sum comm0).1 = .ok ∧
    Ev.enter ∈ (all_reduce okEnv ⟨0, 8⟩ 16 ⟨0, 64⟩ 0 1 .f32 .sum comm0).2 ∧
    Ev.record .src 0 .read
      ∈ (all_reduce okEnv ⟨0, 8⟩ 16 ⟨0, 64⟩ 0 1 .f32 .sum comm0).2 := by decide

/-- C8 counterexample: the claim says the clamped batch grid dimension
remains a valid (at least 1) grid dimension.  For M = 512·65536 and
batchCount = 1 the clamp `gs[1] = 65535 / gs[0]` computes 65535 / 65536 = 0,
and sgemvBatch launches its kernel with batch grid dimension 0. -/
theorem sgemvBatch_grid_clamp_to_zero :
    gemvBatchGs 33554432 1 = (65536, 0) ∧
    Ev.kern "sgemvBH_N_a1_b1_small" [65536, 0] [512, 1] []
      ∈ (sgemvBatch okEnv gemvArgsHuge).2 := by decide

/-- C4 amended: the batched gemv entry points (both precisions are
instantiations of `gemvBatch`) reject any scale factors other than
alpha = 1, beta = 1 with an unsupported-parameters error before any device
work; the batched ger entry points impose no such restriction — their
general-alpha kernel is launched with whatever alpha the caller passed
(batched ger has no beta parameter). -/
theorem batch_scale_factor_policy (nm : GemvNames) (kn : String) (e : Env)
    (a : GemvBatchArgs) (q : Rat) (hf : a.flags = 0)
    (hab : a.alpha ≠ 1 ∨ a.beta ≠ 1) :
    gemvBatch nm e a = (.error .unsupported, []) ∧
    (gerBatch kn okEnv (gerArgs1 q)).1 = .ok ∧
    Ev.kern kn [1, 1, 1] [2, 2, 1] [q] ∈ (gerBatch kn okEnv (gerArgs1 q)).2 := by
  refine ⟨?_, rfl, ?_⟩
  · simp [gemvBatch, hf, hab]
  · show Ev.kern kn [1, 1, 1] [2, 2, 1] [q] ∈
      [Ev.enter, Ev.wait .a 0 .all, Ev.wait .x 0 .read, Ev.wait .y 0 .read,
       Ev.alloc 0 8, Ev.alloc 1 8, Ev.alloc 2 8,
       Ev.kern kn [1, 1, 1] [2, 2, 1] [q],
       Ev.release 0, Ev.release 1, Ev.release 2,
       Ev.record .a 0 .read, Ev.record .x 0 .read, Ev.record .y 0 .all, Ev.exit]
    simp

lemma sub64_of_le {x y : Nat} (hx : x < W64) (hy : y ≤ x) :
    sub64 x y = x - y := by
  unfold sub64 W64 at *
  omega

/-- C5 amended: for every collective operation validated through
`check_restrictions` (all_reduce shown; the check is shared), a request whose
element count scaled by the element width exceeds `buffer.size − offset` is
rejected with the out-of-bounds (GA_VALUE_ERROR) kind before the critical
section is entered — no device work, no hazard events — PROVIDED the offset
is within the buffer; an offset larger than the buffer's size escapes the
check because the size_t subtraction wraps around (only a debug-build assert
catches it). -/
theorem collective_oob_rejected_before_enter
    (e : Env) (src dest : Buf) (offsrc offdest count : Nat) (tc : ElType)
    (oc : RedOp) (comm : Comm)
    (h1 : src.ctx = comm.ctx) (h2 : dest.ctx = comm.ctx) (h3 : tc ≠ .other)
    (h4 : oc ≠ .other) (h5 : src.sz < W64) (h6 : offsrc ≤ src.sz)
    (h7 : count * elsize tc < W64) (h8 : src.sz - offsrc < count * elsize tc) :
    all_reduce e src offsrc dest offdest count tc oc comm =
      (.error .value, []) := by
  have hmod : (count * elsize tc) % W64 = count * elsize tc := Nat.mod_eq_of_lt h7
  have hcr : check_restrictions src offsrc (some dest) offdest count tc oc comm true
      = .error .value := by
    unfold check_restrictions
    simp [ckDestCtx, h1, h2, h3, h4, sub64_of_le h5 h6, hmod, h8]
  simp [all_reduce, hcr]

lemma gemvBatchGs_eq (M bc : Nat) :
    gemvBatchGs M bc =
      if gemvRawG0 M bc * gemvRawG1 M bc / 65535 ≠ 0 then
        (gemvRawG0 M bc, 65535 / gemvRawG0 M bc)
      else (gemvRawG0 M bc, gemvRawG1 M bc) := rfl

lemma gemvBatchLs_snd_pos (M bc : Nat) (hbc : 1 ≤ bc) :
    1 ≤ (gemvBatchLs M bc).2 := by
  unfold gemvBatchLs
  split_ifs <;> simp <;> omega

/-- C8 amended: the block shape is 32 × min(batchCount, 16) when M < 512 and
512 × 1 otherwise; whenever row-block count × batch-block count would exceed
65535, the batch grid dimension is clamped to ⌊65535 / row-block count⌋
(clamping is also applied at exactly 65535, where it is a no-op); the clamped
value is at least 1 only when the row-block count is itself at most 65535 —
for M ≥ 512·65536 the computed batch grid dimension is 0. -/
theorem gemvBatch_grid_policy (M bc : Nat) (hbc : 1 ≤ bc) :
    (M < 512 → gemvBatchLs M bc = (32, min bc 16)) ∧
    (512 ≤ M → gemvBatchLs M bc = (512, 1)) ∧
    (gemvRawG0 M bc * gemvRawG1 M bc ≤ 65535 →
      gemvBatchGs M bc = (gemvRawG0 M bc, gemvRawG1 M bc)) ∧
    (gemvRawG0 M bc * gemvRawG1 M bc > 65535 →
      gemvBatchGs M bc = (gemvRawG0 M bc, 65535 / gemvRawG0 M bc)) ∧
    (gemvRawG0 M bc ≤ 65535 → 1 ≤ (gemvBatchGs M bc).2) := by
  have hls2 := gemvBatchLs_snd_pos M bc hbc
  have hg1 : 1 ≤ gemvRawG1 M bc := by
    unfold gemvRawG1
    rw [Nat.le_div_iff_mul_le hls2]
    omega
  refine ⟨?_, ?_, ?_, ?_, ?_⟩
  · intro h
    unfold gemvBatchLs
    rw [if_pos h]
    have : (if bc > 16 then 16 else bc) = min bc 16 := by
      split_ifs <;> omega
    rw [this]
  · intro h
    unfold gemvBatchLs
    rw [if_neg (by omega)]
  · intro hle
    rw [gemvBatchGs_eq]
    rcases Nat.lt_or_ge (gemvRawG0 M bc * gemvRawG1 M bc) 65535 with hlt | hge
    · rw [if_neg (by simp [Nat.div_eq_of_lt hlt])]
    · have heq : gemvRawG0 M bc * gemvRawG1 M bc = 65535 := le_antisymm hle hge
      have hg0 : 0 < gemvRawG0 M bc := by
        by_contra hz
        simp only [Nat.not_lt, Nat.le_zero] at hz
        rw [hz] at heq
        simp at heq
      rw [if_pos (by rw [heq]; simp)]
      have : 65535 / gemvRawG0 M bc = gemvRawG1 M bc := by
        rw [← heq, Nat.mul_div_cancel_left _ hg0]
      rw [this]
  · intro hgt
    rw [gemvBatchGs_eq]
    rw [if_pos ?_]
    have h65 : 0 < 65535 := by norm_num
    intro hz
    rw [Nat.div_eq_zero_iff h65] at hz
    omega
  · intro hle0
    rw [gemvBatchGs_eq]
    split_ifs with hcl
    · have h65 : 0 < 65535 := by norm_num
      have hg0 : 0 < gemvRawG0 M bc := by
        by_contra hz
        simp only [Nat.not_lt, Nat.le_zero] at hz
        rw [hz] at hcl
        simp at hcl
      show 1 ≤ 65535 / gemvRawG0 M bc
      rw [Nat.le_div_iff_mul_le hg0]
      omega
    · exact hg1

/-- C10: a dot-product call (sdot and ddot are the two instantiations of
`dotModel`) that returns success leaves the cublas handle's pointer mode as
it found it: the mode is read, switched to device-pointer mode, the vendor
dot writes the scalar into the device buffer Z, and the saved mode is
restored before the hazards are recorded — the successful trace is exactly
this sequence and the returned pointer mode equals the initial one. -/
theorem dot_pointer_mode_saved_restored (vn : String) (e : Env) (pm0 : PMode)
    (N : Nat) (h : (dotModel vn e pm0 N).1 = .ok) :
    (dotModel vn e pm0 N).2.2 = pm0 ∧
    (dotModel vn e pm0 N).2.1 =
      [Ev.enter, Ev.wait .x 0 .read, Ev.wait .y 0 .read, Ev.wait .z 0 .write,
       Ev.getPMode, Ev.setPMode .device, Ev.vendor vn, Ev.setPMode pm0,
       Ev.record .x 0 .read, Ev.record .y 0 .read, Ev.record .z 0 .write,
       Ev.exit] := by
  by_cases hl : largeVal N = true
  · exfalso
    simp [dotModel, hl] at h
  have hl' : largeVal N = false := by simpa using hl
  simp only [dotModel, hl', Bool.false_eq_true, if_false] at h ⊢
  rcases h1 : syncList e [Ev.wait .x 0 .read, Ev.wait .y 0 .read, Ev.wait .z 0 .write]
      ⟨[.enter], 0, 0, 0⟩ with ⟨cc, s⟩ | s1 <;> simp only [h1] at h ⊢
  · exact absurd h (by simp)
  have ht1 : s1.tr = [Ev.enter] ++
      [Ev.wait .x 0 .read, Ev.wait .y 0 .read, Ev.wait .z 0 .write] :=
    syncList_ok_tr h1
  rcases h2 : blas1 e Ev.getPMode s1 with ⟨r2, s2⟩
  have ht2 := blas1_tr h2
  rcases r2 with _ | cc2 <;> simp only [h2] at h ⊢
  on_goal 2 => exact absurd h (by simp)
  rcases h3 : blas1 e (Ev.setPMode .device) s2 with ⟨r3, s3⟩
  have ht3 := blas1_tr h3
  rcases r3 with _ | cc3 <;> simp only [h3] at h ⊢
  on_goal 2 => exact absurd h (by simp)
  rcases h4 : blas1 e (Ev.vendor vn) s3 with ⟨r4, s4⟩
  have ht4 := blas1_tr h4
  rcases r4 with _ | cc4 <;> simp only [h4] at h ⊢
  on_goal 2 => exact absurd h (by simp)
  rcases h5 : blas1 e (Ev.setPMode pm0) s4 with ⟨r5, s5⟩
  have ht5 := blas1_tr h5
  rcases r5 with _ | cc5 <;> simp only [h5] at h ⊢
  on_goal 2 => exact absurd h (by simp)
  rcases h6 : syncList e
      [Ev.record .x 0 .read, Ev.record .y 0 .read, Ev.record .z 0 .write] s5 with
      ⟨cc6, s6⟩ | s6 <;> simp only [h6] at h ⊢
  · exact absurd h (by simp)
  have ht6 : s6.tr = s5.tr ++
      [Ev.record .x 0 .read, Ev.record .y 0 .read, Ev.record .z 0 .write] :=
    syncList_ok_tr h6
  refine ⟨by trivial, ?_⟩
  rw [ht6, ht5, ht4, ht3, ht2, ht1]
  rfl

lemma check_restrictions_none_offdest (src : Buf) (offsrc o1 o2 count : Nat)
    (tc : ElType) (oc : RedOp) (comm : Comm) (hasOp : Bool) :
    check_restrictions src offsrc none o1 count tc oc comm hasOp =
      check_restrictions src offsrc none o2 count tc oc comm hasOp := by
  unfold check_restrictions
  rfl

/-- C9: in `reduce`, only the participant whose rank equals root has its
destination buffer validated and hazard-tracked.  A participant whose rank
differs from root may pass any destination (including none) and any
destination offset — the result is identical and its trace carries no
destination hazard event.  For the root, a destination in the wrong context
or with insufficient capacity is rejected with GA_VALUE_ERROR before the
critical section, and a successful call waits and records the destination
with WRITE. -/
theorem reduce_root_only_destination
    (e : Env) (src : Buf) (offsrc : Nat) (d1 d2 : Option Buf) (o1 o2 : Nat)
    (count : Nat) (tc : ElType) (oc : RedOp) (root : Int) (comm : Comm) :
    (comm.rank ≠ root →
      reduce e src offsrc d1 o1 count tc oc root comm =
        reduce e src offsrc d2 o2 count tc oc root comm ∧
      (reduce e src offsrc d1 o1 count tc oc root comm).2.filter isDstEv = []) ∧
    (comm.rank = root → ∀ d : Buf,
      (e.rankOk = true → d.ctx ≠ comm.ctx → src.ctx = comm.ctx →
        reduce e src offsrc (some d) o1 count tc oc root comm =
          (.error .value, [])) ∧
      (e.rankOk = true → src.ctx = comm.ctx → d.ctx = comm.ctx → tc ≠ .other →
        oc ≠ .other → ¬ (sub64 src.sz offsrc < (count * elsize tc) % W64) →
        sub64 d.sz o1 < (count * elsize tc) % W64 →
        reduce e src offsrc (some d) o1 count tc oc root comm =
          (.error .value, [])) ∧
      ((reduce e src offsrc (some d) o1 count tc oc root comm).1 = .ok →
        (reduce e src offsrc (some d) o1 count tc oc root comm).2.filter isDstEv =
          [Ev.wait .dst 0 .write, Ev.record .dst 0 .write])) := by
  constructor
  · intro hr
    have hck := check_restrictions_none_offdest src offsrc o1 o2 count tc oc comm true
    constructor
    · simp [reduce, hr, hck]
    · simp only [reduce]
      rw [if_neg (show ¬ (comm.rank = root ∧ d1 = none) by simp [hr])]
      rw [if_neg hr]
      by_cases hrk : e.rankOk = true
      on_goal 2 =>
        rw [if_pos (by simp [hrk])]
        rfl
      rw [if_neg (by simp [hrk])]
      rcases hcr : check_restrictions src offsrc none o1 count tc oc comm true with _ | cc <;>
        simp only [hcr]
      on_goal 2 => rfl
      rcases h1 : syncList e [Ev.wait .src 0 .read] ⟨[.enter], 0, 0, 0⟩ with ⟨cc, s⟩ | s1 <;>
        simp only [h1]
      · obtain ⟨t, ht, hm⟩ := syncList_stOf_tr e [Ev.wait .src 0 .read] ⟨[.enter], 0, 0, 0⟩
        rw [h1] at ht
        simp only [stOf] at ht
        rw [ht]
        have ft : t.filter isDstEv = [] := List.filter_eq_nil_iff.mpr (by
          intro ev hev
          have := hm ev hev
          simp at this
          subst this
          simp [isDstEv])
        simp [List.filter_append, ft, isDstEv]
      · have ht1 : s1.tr = [Ev.enter] ++ [Ev.wait .src 0 .read] := syncList_ok_tr h1
        rw [if_neg hr]
        try dsimp only
        by_cases hn : e.ncclOk = true
        on_goal 2 =>
          rw [if_pos (by simp [hn])]
          simp [ht1, isDstEv]
        rw [if_neg (by simp [hn])]
        rcases h2 : syncList e [Ev.record .src 0 .read]
            { s1 with tr := s1.tr ++ [Ev.vendor "ncclReduce"] } with ⟨cc2, s2⟩ | s2 <;>
          simp only [h2]
        · obtain ⟨t, ht, hm⟩ := syncList_stOf_tr e [Ev.record .src 0 .read]
            { s1 with tr := s1.tr ++ [Ev.vendor "ncclReduce"] }
          rw [h2] at ht
          simp only [stOf] at ht
          rw [ht]
          have ft : t.filter isDstEv = [] := List.filter_eq_nil_iff.mpr (by
            intro ev hev
            have := hm ev hev
            simp at this
            subst this
            simp [isDstEv])
          simp [List.filter_append, ft, isDstEv, ht1]
        · have ht2 : s2.tr = s1.tr ++ [Ev.vendor "ncclReduce"] ++ [Ev.record .src 0 .read] := by
            have := syncList_ok_tr h2
            simpa using this
          rw [if_neg hr]
          try dsimp only
          simp [ht2, ht1, List.filter_append, isDstEv]
  · intro hro d
    refine ⟨?_, ?_, ?_⟩
    · intro hrk hdc hsc
      have hcr : check_restrictions src offsrc (some d) o1 count tc oc comm true
          = .error .value := by
        unfold check_restrictions
        simp [ckDestCtx, hsc, hdc]
      simp [reduce, hrk, hro, hcr]
    · intro hrk hsc hdc h3 h4 hsfit hdover
      have hcr : check_restrictions src offsrc (some d) o1 count tc oc comm true
          = .error .value := by
        unfold check_restrictions
        simp [ckDestCtx, ckDestSize, hsc, hdc, h3, h4, hsfit, hdover]
      simp [reduce, hrk, hro, hcr]
    · intro h
      by_cases hrk : e.rankOk = true
      on_goal 2 => simp [reduce, hrk] at h
      simp only [reduce] at h ⊢
      rw [if_neg (by simp [hrk]), if_neg (show ¬ (comm.rank = root ∧ some d = none) by simp),
        if_pos hro] at h ⊢
      rcases hcr : check_restrictions src offsrc (some d) o1 count tc oc comm true
          with _ | cc <;> simp only [hcr] at h ⊢
      on_goal 2 => exact absurd h (by simp)
      rcases h1 : syncList e [Ev.wait .src 0 .read] ⟨[.enter], 0, 0, 0⟩ with ⟨cc, s⟩ | s1 <;>
        simp only [h1] at h ⊢
      · exact absurd h (by simp)
      have ht1 : s1.tr = [Ev.enter] ++ [Ev.wait .src 0 .read] := syncList_ok_tr h1
      rw [if_pos hro] at h ⊢
      rcases h2 : syncList e [Ev.wait .dst 0 .write] s1 with ⟨cc2, s2⟩ | s2 <;>
        simp only [h2] at h ⊢
      · exact absurd h (by simp)
      have ht2 : s2.tr = s1.tr ++ [Ev.wait .dst 0 .write] := syncList_ok_tr h2
      by_cases hn : e.ncclOk = true
      on_goal 2 =>
        rw [if_pos (by simp [hn])] at h
        exact absurd h (by simp)
      rw [if_neg (by simp [hn])] at h ⊢
      rcases h3 : syncList e [Ev.record .src 0 .read]
          { s2 with tr := s2.tr ++ [Ev.vendor "ncclReduce"] } with ⟨cc3, s3⟩ | s3 <;>
        simp only [h3] at h ⊢
      · exact absurd h (by simp)
      have ht3 : s3.tr = s2.tr ++ [Ev.vendor "ncclReduce"] ++ [Ev.record .src 0 .read] := by
        have := syncList_ok_tr h3
        simpa using this
      rw [if_pos hro] at h ⊢
      rcases h4 : syncList e [Ev.record .dst 0 .write] s3 with ⟨cc4, s4⟩ | s4 <;>
        simp only [h4] at h ⊢
      · exact absurd h (by simp)
      have ht4 : s4.tr = s3.tr ++ [Ev.record .dst 0 .write] := syncList_ok_tr h4
      rw [ht4, ht3, ht2, ht1]
      simp [isDstEv]

/-- Witness for the batch scale-factor policy at concrete inputs. -/
theorem batch_scale_factor_policy_w :
    gemvBatch sGemvNames okEnv { gemvArgs1 with alpha := 2 } =
      (.error .unsupported, []) ∧
    (gerBatch "sgerBH_gen_small" okEnv (gerArgs1 3)).1 = .ok := by
  have h := batch_scale_factor_policy sGemvNames "sgerBH_gen_small" okEnv
    { gemvArgs1 with alpha := 2 } 3 (by decide) (Or.inl (by decide))
  exact ⟨h.1, h.2.1⟩

/-- Witness for the out-of-bounds rejection at a concrete input: a 2-element
float read from a buffer of 8 bytes at offset 4 is rejected up front. -/
theorem collective_oob_rejected_before_enter_w :
    all_reduce okEnv ⟨0, 8⟩ 4 ⟨0, 64⟩ 0 2 .f32 .sum comm0 = (.error .value, []) :=
  collective_oob_rejected_before_enter okEnv ⟨0, 8⟩ ⟨0, 64⟩ 4 0 2 .f32 .sum comm0
    rfl rfl (by decide) (by decide) (by decide) (by decide) (by decide) (by decide)

/-- Witness for the gemm dispatch threshold at a concrete below-threshold
input. -/
theorem gemmBatch_dispatch_threshold_w :
    (gemmBatch sGemmNames okEnv gbArgs1).2.filter isVendorB =
      [Ev.vendorB sGemmNames.gemmB 0 (gbArgs1.batchCount * 8)
        (gbArgs1.batchCount * 8 * 2)] := by
  have h := gemmBatch_dispatch_threshold sGemmNames okEnv gbArgs1 (by decide)
  exact (h.2 (by decide)).2.1

/-- Witness for the gemv grid policy at a concrete input. -/
theorem gemvBatch_grid_policy_w :
    gemvBatchLs 100 5 = (32, min 5 16) ∧ 1 ≤ (gemvBatchGs 100 5).2 := by
  have h := gemvBatch_grid_policy 100 5 (by decide)
  exact ⟨h.1 (by decide), h.2.2.2.2 (by decide)⟩

/-- Witness for the rooted-reduce destination policy at concrete inputs:
a non-root caller's destination argument and offset are irrelevant, and a
successful root call waits/records its destination with WRITE. -/
theorem reduce_root_only_destination_w :
    reduce okEnv ⟨0, 8⟩ 0 (some ⟨0, 64⟩) 0 1 .f32 .sum 1 comm0 =
      reduce okEnv ⟨0, 8⟩ 0 none 3 1 .f32 .sum 1 comm0 ∧
    (reduce okEnv ⟨0, 8⟩ 0 (some ⟨0, 64⟩) 0 1 .f32 .sum 0 comm0).2.filter isDstEv =
      [Ev.wait .dst 0 .write, Ev.record .dst 0 .write] := by
  have h1 := reduce_root_only_destination okEnv ⟨0, 8⟩ 0 (some ⟨0, 64⟩) none 0 3
    1 .f32 .sum 1 comm0
  have h2 := reduce_root_only_destination okEnv ⟨0, 8⟩ 0 (some ⟨0, 64⟩) none 0 3
    1 .f32 .sum 0 comm0
  exact ⟨(h1.1 (by decide)).1, (h2.2 rfl ⟨0, 64⟩).2.2 (by decide)⟩

/-- Witness for the dot-product pointer-mode round trip at a concrete
input. -/
theorem dot_pointer_mode_saved_restored_w :
    (dotModel "cublasSdot" okEnv .host 4).2.2 = .host :=
  (dot_pointer_mode_saved_restored "cublasSdot" okEnv .host 4 (by decide)).1
